import Mathlib

/-!
Shallow embedding of the CreditRadar ledger store (src/src/App.jsx).

Modelling conventions:
* JavaScript numbers (`credits`, `amount`) are modelled as `ℚ`; the code never
  produces `NaN`/`Infinity` for stored fields, and `Number(x) || 0` on a
  possibly-absent / non-numeric form field is modelled as `Option ℚ` with
  `Option.getD _ 0`.
* `crypto.randomUUID()` is nondeterministic, so every state-creating
  operation takes the generated id as an explicit argument (`newId`), and the
  default dataset takes an id stream `uuid : ℕ → String`.
* Calendar dates: the code stores ISO day strings `YYYY-MM-DD` and compares
  them either via `new Date(_)` (chronological) or `localeCompare`
  (lexicographic); on such strings the two orders agree, so `date` is
  modelled as an integer millisecond timestamp truncated to day granularity.
* `localStorage` reads are modelled by an `Option StoredState` argument:
  `none` covers both "key absent" and "JSON.parse threw".
-/

namespace CreditRadar

/-- A tracked platform record (fields as in `initialState` / `addCustomPlatform`). -/
structure Platform where
  id : String
  name : String
  credits : ℚ
  color : String
  unit : String
  account : String
  monthlyAllowance : ℚ
deriving Repr, DecidableEq

/-- A logged credit transaction (fields as in `demoTransactions` / `addTransaction`). -/
structure Txn where
  id : String
  platform : String
  amount : ℚ
  project : String
  note : String
  date : ℤ
deriving Repr, DecidableEq

/-- The ledger store state: `{ platforms, transactions }`. -/
structure LedgerState where
  platforms : List Platform
  transactions : List Txn
deriving Repr, DecidableEq

/-- `PLATFORM_PRESETS`: preset key and color pairs. -/
def PLATFORM_PRESETS : List (String × String) :=
  [("Higgsfield", "#34d399"), ("Suno", "#60a5fa"), ("Google Flow", "#fbbf24"),
   ("Runway", "#f472b6"), ("Pika", "#a78bfa"), ("Luma", "#22d3ee")]

/-- JavaScript `String.prototype.toLowerCase()` (character-wise lowering). -/
def jsToLower (s : String) : String := ⟨s.data.map Char.toLower⟩

/-- JavaScript `String.prototype.trim()`: strip whitespace from both ends. -/
def jsTrim (s : String) : String :=
  ⟨((s.data.dropWhile Char.isWhitespace).reverse.dropWhile Char.isWhitespace).reverse⟩

/-- Milliseconds in a day (`24 * 3600 * 1000`). -/
def msPerDay : ℤ := 86400000

/-- `new Date(now - n days).toISOString().slice(0, 10)`: the timestamp truncated
to its UTC day, as an integer timestamp. -/
def isoDay (t : ℤ) : ℤ := msPerDay * (t.fdiv msPerDay)

/-- `demoTransactions()`: the six seeded demo transactions. -/
def demoTransactions (uuid : ℕ → String) (now : ℤ) : List Txn :=
  [{ id := uuid 6, platform := "Higgsfield", amount := -120, project := "Bug City trailer",
     note := "4 x 30s gens", date := isoDay (now - 1 * msPerDay) },
   { id := uuid 7, platform := "Suno", amount := -40, project := "NeonShore EP",
     note := "2 songs v4", date := isoDay (now - 2 * msPerDay) },
   { id := uuid 8, platform := "Runway", amount := -60, project := "FCG Reel",
     note := "Gen-3 alpha shots", date := isoDay (now - 4 * msPerDay) },
   { id := uuid 9, platform := "Google Flow", amount := -30, project := "Pitch deck",
     note := "text-to-video", date := isoDay (now - 6 * msPerDay) },
   { id := uuid 10, platform := "Pika", amount := -25, project := "Meme pack",
     note := "shorts", date := isoDay (now - 9 * msPerDay) },
   { id := uuid 11, platform := "Luma", amount := -50, project := "Desert MV",
     note := "lighting tests", date := isoDay (now - 12 * msPerDay) }]

/-- `initialState`: six preset platforms with a 1000 starting balance plus the
demo transactions. -/
def initialState (uuid : ℕ → String) (now : ℤ) : LedgerState :=
  { platforms := PLATFORM_PRESETS.enum.map (fun ip =>
      { id := uuid ip.1, name := ip.2.1, credits := 1000, color := ip.2.2,
        unit := "credits", account := "main", monthlyAllowance := 0 }),
    transactions := demoTransactions uuid now }

/-- The JSON object read back from local storage; each top-level key may be
absent (`parsed.platforms ?? _`, `parsed.transactions ?? _`). -/
structure StoredState where
  platforms : Option (List Platform)
  transactions : Option (List Txn)

/-- `loadState()`: `none` models a missing key or a `JSON.parse` failure
(both return `initialState`); a parsed object falls back field by field. -/
def loadState (uuid : ℕ → String) (now : ℤ) (raw : Option StoredState) : LedgerState :=
  match raw with
  | none => initialState uuid now
  | some parsed =>
    { platforms := parsed.platforms.getD (initialState uuid now).platforms,
      transactions := parsed.transactions.getD (initialState uuid now).transactions }

/-- `totalCredits`: `platforms.reduce((a, p) => a + (Number(p.credits) || 0), 0)`. -/
def totalCredits (s : LedgerState) : ℚ :=
  s.platforms.foldl (fun a p => a + p.credits) 0

/-- `last30`: transactions with `new Date(t.date) >= Date.now() - 30 days`. -/
def last30 (now : ℤ) (txns : List Txn) : List Txn :=
  txns.filter (fun t => decide (now - 30 * msPerDay ≤ t.date))

/-- `+x.toFixed(2)`: rounding to two decimal places. -/
def round2 (q : ℚ) : ℚ := (round (q * 100) : ℤ) / 100

/-- `dailyBurn`: 0 on an empty window, else the 30-day spend magnitude divided
by 30, rounded to 2 decimals. -/
def dailyBurn (now : ℤ) (txns : List Txn) : ℚ :=
  if (last30 now txns).isEmpty then 0
  else round2 ((((last30 now txns).filter (fun t => decide (t.amount < 0))).foldl
    (fun a t => a + |t.amount|) 0) / 30)

/-- `forecastDays`: `none` models the `Infinity` sentinel. -/
def forecastDays (tc db : ℚ) : Option ℤ :=
  if db ≤ 0 then none else some ⌊tc / db⌋

/-- `platformMap = Object.fromEntries(platforms.map(p => [p.name, p]))` as a
lookup: with duplicate names the later entry wins, hence the reversed search. -/
def platformMapFind (ps : List Platform) (name : String) : Option Platform :=
  ps.reverse.find? (fun p => p.name == name)

/-- `filteredTxns`: filter by the selected platform name (`"All"` passes
everything), then sort by date descending with JavaScript's stable sort. -/
def filteredTxns (filter : String) (txns : List Txn) : List Txn :=
  (txns.filter (fun t => filter == "All" || t.platform == filter)).mergeSort
    (fun a b => decide (b.date ≤ a.date))

/-- `addPlatform(presetName)`: falsy-name guard, exact-name duplicate guard,
then push a platform with zero credits and the preset color. -/
def addPlatform (s : LedgerState) (presetName : String) (newId : String) : LedgerState :=
  if presetName = "" then s
  else if s.platforms.any (fun p => p.name == presetName) then s
  else { s with platforms := s.platforms ++
    [{ id := newId, name := presetName, credits := 0,
       color := ((PLATFORM_PRESETS.find? (fun p => p.1 == presetName)).map
         (fun p => p.2)).getD "#64748b",
       unit := "credits", account := "main", monthlyAllowance := 0 }] }

/-- The `NEW (custom)` form payload; absent or non-numeric fields are `none`. -/
structure CustomForm where
  name : Option String
  credits : Option ℚ
  color : Option String
  unit : Option String
  account : Option String
  monthlyAllowance : Option ℚ

/-- `addCustomPlatform(custom)`: empty-trimmed-name guard, case-insensitive
duplicate guard, then push the platform with defaulted fields. -/
def addCustomPlatform (s : LedgerState) (custom : CustomForm) (newId : String) : LedgerState :=
  if jsTrim (custom.name.getD "") = "" then s
  else if s.platforms.any (fun p =>
    jsToLower p.name == jsToLower (jsTrim (custom.name.getD ""))) then s
  else { s with platforms := s.platforms ++
    [{ id := newId, name := jsTrim (custom.name.getD ""), credits := custom.credits.getD 0,
       color := custom.color.getD "#64748b", unit := custom.unit.getD "credits",
       account := custom.account.getD "main",
       monthlyAllowance := custom.monthlyAllowance.getD 0 }] }

/-- A field-wise platform update, as passed to `updatePlatform(id, patch)`;
callers never patch `id`. -/
structure PlatformPatch where
  name : Option String
  credits : Option ℚ
  color : Option String
  unit : Option String
  account : Option String
  monthlyAllowance : Option ℚ

/-- `{ ...p, ...patch }`. -/
def applyPatch (p : Platform) (patch : PlatformPatch) : Platform :=
  { id := p.id, name := patch.name.getD p.name, credits := patch.credits.getD p.credits,
    color := patch.color.getD p.color, unit := patch.unit.getD p.unit,
    account := patch.account.getD p.account,
    monthlyAllowance := patch.monthlyAllowance.getD p.monthlyAllowance }

/-- `updatePlatform(id, patch)`. -/
def updatePlatform (s : LedgerState) (id : String) (patch : PlatformPatch) : LedgerState :=
  { s with platforms := s.platforms.map (fun p => if p.id == id then applyPatch p patch else p) }

/-- `removePlatform(id)`: drop the platform by id; drop the transactions whose
platform resolves to that id via `platformMap` or matches the removed
platform's name (`?? null` / `?.name` on a miss keep the transaction). -/
def removePlatform (s : LedgerState) (id : String) : LedgerState :=
  { platforms := s.platforms.filter (fun p => p.id != id),
    transactions := s.transactions.filter (fun t =>
      (match platformMapFind s.platforms t.platform with
       | some q => q.id != id
       | none => true) &&
      (match s.platforms.find? (fun p => p.id == id) with
       | some p => t.platform != p.name
       | none => true)) }

/-- The transaction form payload (no id yet). -/
structure TxnInput where
  platform : String
  amount : ℚ
  project : String
  note : String
  date : ℤ
deriving Repr, DecidableEq

/-- `{ id: crypto.randomUUID(), ...txn }`. -/
def mkTxn (newId : String) (t : TxnInput) : Txn :=
  { id := newId, platform := t.platform, amount := t.amount, project := t.project,
    note := t.note, date := t.date }

/-- `addTransaction(txn)`: prepend the new transaction; nothing else changes. -/
def addTransaction (s : LedgerState) (newId : String) (t : TxnInput) : LedgerState :=
  { s with transactions := mkTxn newId t :: s.transactions }

/-- A credits-only patch, as built by the `TransactionDrawer` `onCreate` handler. -/
def patchCredits (c : ℚ) : PlatformPatch :=
  { name := none, credits := some c, color := none, unit := none, account := none,
    monthlyAllowance := none }

/-- The `TransactionDrawer` `onCreate` handler: `addTransaction(t)` then, when a
platform matches `t.platform` by name, `updatePlatform(p.id, { credits:
Number(p.credits) + Number(t.amount) })`; the lookup runs on the pre-call
platform list. -/
def onCreateTxn (s : LedgerState) (t : TxnInput) (newId : String) : LedgerState :=
  let s1 := addTransaction s newId t
  match s.platforms.find? (fun p => p.name == t.platform) with
  | some p => updatePlatform s1 p.id (patchCredits (p.credits + t.amount))
  | none => s1

/-! ### CSV export (`exportCSV`)

The serializer is modelled on `List Char` so character-level facts about
quoting are provable; `String(v)` on a numeric field is modelled by Lean's
`toString` (its exact digits are irrelevant to the stated properties). -/

/-- `String(v).replaceAll('"', '""')`: every quote character is doubled. -/
def escapeQuotes (s : List Char) : List Char :=
  s.flatMap (fun c => if c = '"' then ['"', '"'] else [c])

/-- A CSV field: the escaped value wrapped in quotes. -/
def csvField (s : List Char) : List Char :=
  '"' :: (escapeQuotes s ++ ['"'])

/-- `Array.prototype.join(sep)` on already-rendered chunks. -/
def joinSep (sep : Char) : List (List Char) → List Char
  | [] => []
  | [x] => x
  | x :: y :: xs => x ++ sep :: joinSep sep (y :: xs)

/-- One CSV row: quoted fields joined by commas. -/
def csvRow (r : List (List Char)) : List Char :=
  joinSep ',' (r.map csvField)

/-- `make(rows)`: rows joined by `"\n"`. -/
def makeCSV (rows : List (List (List Char))) : List Char :=
  joinSep '\n' (rows.map csvRow)

/-- `headers1`. -/
def balancesHeader : List (List Char) :=
  ["Platform".data, "Credits".data, "Unit".data, "MonthlyAllowance".data, "Account".data]

/-- `headers2`. -/
def txnHeader : List (List Char) :=
  ["Date".data, "Platform".data, "Amount".data, "Project".data, "Note".data]

/-- `String(v)` on a numeric value. -/
def numStr (q : ℚ) : List Char := (toString q).data

/-- `[p.name, p.credits, p.unit, p.monthlyAllowance, p.account]`. -/
def balanceRow (p : Platform) : List (List Char) :=
  [p.name.data, numStr p.credits, p.unit.data, numStr p.monthlyAllowance, p.account.data]

/-- `[t.date, t.platform, t.amount, t.project || "", t.note || ""]`. -/
def txnRow (t : Txn) : List (List Char) :=
  [(toString t.date).data, t.platform.data, numStr t.amount, t.project.data, t.note.data]

/-- The full export text:
`` `Balances\n${part1}\n\nTransactions\n${part2}` ``. -/
def exportContent (s : LedgerState) : List Char :=
  "Balances\n".data ++ makeCSV (balancesHeader :: s.platforms.map balanceRow) ++
  "\n\n".data ++ "Transactions\n".data ++ makeCSV (txnHeader :: s.transactions.map txnRow)

/-- Modelled from the spec: re-splitting exported text on *row boundaries*,
i.e. on newline characters that occur outside a quoted field (quote-aware CSV
record splitting). Used only to state the round-trip property. -/
def splitRecordsAux : List Char → Bool → List Char → List (List Char)
  | [], _, acc => [acc.reverse]
  | c :: cs, inQ, acc =>
    if c = '"' then splitRecordsAux cs (!inQ) (c :: acc)
    else if inQ = false ∧ c = '\n' then acc.reverse :: splitRecordsAux cs inQ []
    else splitRecordsAux cs inQ (c :: acc)

/-- The logical CSV records of a serialized table. -/
def splitRecords (s : List Char) : List (List Char) :=
  splitRecordsAux s false []

/-! ## Helper lemmas -/

/-- Folding `a + |t.amount|` accumulates the sum of mapped absolute amounts. -/
theorem foldl_absAmount_eq_sum (l : List Txn) (init : ℚ) :
    l.foldl (fun a t => a + |t.amount|) init = init + (l.map (fun t => |t.amount|)).sum := by
  induction l generalizing init with
  | nil => simp
  | cons t l ih => simp [ih, add_assoc]

/-! ## Claims -/

/-- C10: the store operation `addTransaction`, by itself, only prepends the new
transaction; the platform collection after the call is identical to the one
before, so any balance adjustment must come from a separate `updatePlatform`
call by the caller. -/
theorem c10_addTransaction_frame (s : LedgerState) (newId : String) (t : TxnInput) :
    (addTransaction s newId t).platforms = s.platforms ∧
    (addTransaction s newId t).transactions = mkTxn newId t :: s.transactions :=
  ⟨rfl, rfl⟩

/-- C7: loading durable state falls back field by field: a missing key or parse
failure yields the whole built-in default dataset; a stored object missing only
`transactions` keeps the stored platforms and substitutes the (nonempty) demo
transactions; symmetrically for a missing `platforms` key. -/
theorem c7_loadState_fallback (uuid : ℕ → String) (now : ℤ)
    (ps : List Platform) (ts : List Txn) :
    loadState uuid now none = initialState uuid now ∧
    loadState uuid now (some { platforms := some ps, transactions := none }) =
      { platforms := ps, transactions := demoTransactions uuid now } ∧
    demoTransactions uuid now ≠ [] ∧
    loadState uuid now (some { platforms := none, transactions := some ts }) =
      { platforms := (initialState uuid now).platforms, transactions := ts } :=
  ⟨rfl, rfl, by simp [demoTransactions], rfl⟩

/-- C5: `forecastDays` is `⌊totalCredits / dailyBurn⌋` when the burn is
positive and the infinite sentinel when it is `≤ 0`; at `160` credits and a
`5.33` burn it is `30` days. -/
theorem c5_forecastDays (tc db : ℚ) :
    (0 < db → forecastDays tc db = some ⌊tc / db⌋) ∧
    (db ≤ 0 → forecastDays tc db = none) ∧
    forecastDays 160 (533 / 100) = some 30 ∧
    forecastDays 160 0 = none := by
  refine ⟨fun h => ?_, fun h => ?_, ?_, ?_⟩
  · simp [forecastDays, not_le.mpr h]
  · simp [forecastDays, h]
  · have hfl : (⌊(160 : ℚ) / (533 / 100)⌋ : ℤ) = 30 := by
      rw [Int.floor_eq_iff]
      norm_num
    simp [forecastDays, hfl]
  · simp [forecastDays]

/-- Witness for C5 at a concrete positive burn rate. -/
theorem c5_forecastDays_witness : forecastDays 160 0 = none :=
  (c5_forecastDays 160 0).2.1 le_rfl

/-- The two transactions of the C4 example: `-120` one day ago and `-40` two
days ago. -/
def burnTxnA (now : ℤ) : Txn :=
  { id := "d1", platform := "Higgsfield", amount := -120, project := "p", note := "",
    date := now - 1 * msPerDay }

def burnTxnB (now : ℤ) : Txn :=
  { id := "d2", platform := "Suno", amount := -40, project := "q", note := "",
    date := now - 2 * msPerDay }

/-- C4: `dailyBurn` equals the sum of absolute values of negative amounts in
the trailing 30-day window, divided by 30 and rounded to two decimals; on
exactly the transactions `-120` at `T-1` and `-40` at `T-2` it equals `5.33`. -/
theorem c4_dailyBurn (now : ℤ) (txns : List Txn) :
    dailyBurn now txns =
      round2 ((((last30 now txns).filter (fun t => decide (t.amount < 0))).map
        (fun t => |t.amount|)).sum / 30) ∧
    dailyBurn now [burnTxnA now, burnTxnB now] = 533 / 100 := by
  constructor
  · by_cases h : (last30 now txns).isEmpty
    · have h' : last30 now txns = [] := by simpa using h
      simp [dailyBurn, h', round2]
    · simp [dailyBurn, h, foldl_absAmount_eq_sum]
  · have e1 : last30 now [burnTxnA now, burnTxnB now] = [burnTxnA now, burnTxnB now] := by
      rw [last30, List.filter_eq_self]
      intro t ht
      simp only [List.mem_cons, List.not_mem_nil, or_false] at ht
      rcases ht with h | h <;> subst h <;>
        simp only [burnTxnA, burnTxnB, decide_eq_true_eq, msPerDay] <;> omega
    rw [dailyBurn, e1]
    have e2 : ([burnTxnA now, burnTxnB now] : List Txn).filter
        (fun t => decide (t.amount < 0)) = [burnTxnA now, burnTxnB now] := by
      rw [List.filter_eq_self]
      intro t ht
      simp only [List.mem_cons, List.not_mem_nil, or_false] at ht
      rcases ht with h | h <;> subst h <;>
        simp only [burnTxnA, burnTxnB, decide_eq_true_eq] <;> norm_num
    rw [if_neg (by simp), e2]
    have habs : (0 : ℚ) + |(burnTxnA now).amount| + |(burnTxnB now).amount| = 160 := by
      show (0 : ℚ) + |(-120 : ℚ)| + |(-40 : ℚ)| = 160
      rw [abs_of_neg (by norm_num : (-120 : ℚ) < 0), abs_of_neg (by norm_num : (-40 : ℚ) < 0)]
      norm_num
    simp only [List.foldl_cons, List.foldl_nil, habs]
    have hr : round ((160 : ℚ) / 30 * 100) = 533 := by
      norm_num [round_eq, Int.floor_eq_iff]
    rw [round2, hr]
    norm_num

/-- Unfolding lemma for `escapeQuotes` on a cons. -/
theorem escapeQuotes_cons (c : Char) (s : List Char) :
    escapeQuotes (c :: s) = (if c = '"' then ['"', '"'] else [c]) ++ escapeQuotes s := by
  simp [escapeQuotes]

/-- Unfolding lemma for one scanning step. -/
theorem splitRecordsAux_cons (c : Char) (cs : List Char) (inQ : Bool) (acc : List Char) :
    splitRecordsAux (c :: cs) inQ acc =
      if c = '"' then splitRecordsAux cs (!inQ) (c :: acc)
      else if inQ = false ∧ c = '\n' then acc.reverse :: splitRecordsAux cs inQ []
      else splitRecordsAux cs inQ (c :: acc) := by
  rw [splitRecordsAux]

/-- Scanning escaped field text from inside a quoted field stays inside the
field and emits no record boundary (quotes come in pairs, so any newline is
seen in the quoted state). -/
theorem splitRecordsAux_escape (s rest acc : List Char) :
    splitRecordsAux (escapeQuotes s ++ rest) true acc =
      splitRecordsAux rest true ((escapeQuotes s).reverse ++ acc) := by
  induction s generalizing acc with
  | nil => simp [escapeQuotes]
  | cons c s ih =>
    rw [escapeQuotes_cons]
    by_cases hc : c = '"'
    · subst hc
      rw [if_pos rfl]
      simp only [List.cons_append, List.nil_append, List.append_assoc]
      rw [splitRecordsAux_cons, if_pos rfl, splitRecordsAux_cons, if_pos rfl]
      simp only [Bool.not_true, Bool.not_false]
      rw [ih]
      simp [List.reverse_append]
    · rw [if_neg hc]
      simp only [List.cons_append, List.nil_append, List.append_assoc]
      rw [splitRecordsAux_cons, if_neg hc, if_neg (by simp)]
      rw [ih]
      simp [List.reverse_append]

/-- Scanning one quoted CSV field from outside a field returns to the outside
state and emits no record boundary. -/
theorem splitRecordsAux_field (s rest acc : List Char) :
    splitRecordsAux (csvField s ++ rest) false acc =
      splitRecordsAux rest false ((csvField s).reverse ++ acc) := by
  rw [csvField, List.cons_append, splitRecordsAux_cons, if_pos rfl]
  simp only [Bool.not_false, List.append_assoc, List.cons_append, List.nil_append]
  rw [splitRecordsAux_escape, splitRecordsAux_cons, if_pos rfl]
  simp [List.reverse_append]

/-- Scanning one serialized CSV row emits no record boundary. -/
theorem splitRecordsAux_row (r : List (List Char)) (rest acc : List Char) :
    splitRecordsAux (csvRow r ++ rest) false acc =
      splitRecordsAux rest false ((csvRow r).reverse ++ acc) := by
  induction r generalizing acc with
  | nil => simp [csvRow, joinSep]
  | cons f fs ih =>
    cases fs with
    | nil => simpa [csvRow, joinSep] using splitRecordsAux_field f rest acc
    | cons g gs =>
      have hrow : csvRow (f :: g :: gs) = csvField f ++ ',' :: csvRow (g :: gs) := by
        simp [csvRow, joinSep]
      rw [hrow, List.append_assoc, splitRecordsAux_field, List.cons_append,
        splitRecordsAux_cons, if_neg (by decide), if_neg (by decide)]
      rw [ih]
      simp [List.reverse_append]

/-- The quote-aware record count of a serialized table equals its row count:
quoting keeps embedded newlines inside one logical row. -/
theorem length_splitRecords_makeCSV :
    ∀ (r : List (List Char)) (rows : List (List (List Char))),
      (splitRecords (makeCSV (r :: rows))).length = rows.length + 1
  | r, [] => by
    rw [splitRecords, makeCSV, List.map_cons, List.map_nil, joinSep,
      show (csvRow r) = csvRow r ++ [] by simp, splitRecordsAux_row]
    simp [splitRecordsAux]
  | r, r2 :: rows => by
    have h : makeCSV (r :: r2 :: rows) = csvRow r ++ '\n' :: makeCSV (r2 :: rows) := by
      simp [makeCSV, joinSep]
    rw [splitRecords, h, splitRecordsAux_row, splitRecordsAux_cons, if_neg (by decide),
      if_pos (by decide)]
    have := length_splitRecords_makeCSV r2 rows
    rw [splitRecords] at this
    simp [this]

/-- C6: the CSV export quotes every field with internal quotes doubled and rows
joined by newlines, in two labelled sections separated by a blank line; a table
with a quoted value (`B"2`) and an embedded-newline value serializes so that
quote-aware re-splitting yields exactly the input row count plus one header
row. -/
theorem c6_exportCSV (header : List (List Char)) (rows : List (List (List Char)))
    (s : LedgerState) :
    (splitRecords (makeCSV (header :: rows))).length = rows.length + 1 ∧
    csvField "B\"2".data = "\"B\"\"2\"".data ∧
    (makeCSV [["A,1".data, "B\"2".data, "C\n3".data],
      ["x".data, "y".data, "z".data]]).count '\n' + 1 = 3 ∧
    (splitRecords (makeCSV [txnHeader, ["A,1".data, "B\"2".data, "C\n3".data],
      ["x".data, "y".data, "z".data]])).length = 3 ∧
    exportContent s =
      "Balances\n".data ++ makeCSV (balancesHeader :: s.platforms.map balanceRow) ++
      "\n\n".data ++ "Transactions\n".data ++
      makeCSV (txnHeader :: s.transactions.map txnRow) :=
  ⟨length_splitRecords_makeCSV header rows, by decide, by decide,
    length_splitRecords_makeCSV _ _, rfl⟩

/-- A credits-only patch only changes `credits`. -/
theorem applyPatch_patchCredits (q : Platform) (v : ℚ) :
    applyPatch q (patchCredits v) = { q with credits := v } := rfl

/-- C1: the logged-usage flow — `addTransaction` followed by the caller's
conditional `updatePlatform` — records the transaction with the newly assigned
id prepended; the (unique) platform matching `txn.platform` by name has its
credits adjusted by `txn.amount`, every other platform is untouched; with no
matching name the platform collection is unchanged. -/
theorem c1_addTransaction_flow (s : LedgerState) (t : TxnInput) (newId : String)
    (hids : (s.platforms.map Platform.id).Nodup) :
    (onCreateTxn s t newId).transactions = mkTxn newId t :: s.transactions ∧
    (∀ p, s.platforms.find? (fun q => q.name == t.platform) = some p →
      (onCreateTxn s t newId).platforms =
        s.platforms.map (fun q => if q = p then
          { q with credits := q.credits + t.amount } else q)) ∧
    ((∀ p ∈ s.platforms, p.name ≠ t.platform) →
      (onCreateTxn s t newId).platforms = s.platforms) := by
  refine ⟨?_, ?_, ?_⟩
  · rw [onCreateTxn]
    cases h : s.platforms.find? (fun q => q.name == t.platform) <;>
      simp only [h, updatePlatform, addTransaction]
  · intro p hp
    rw [onCreateTxn, hp]
    show (updatePlatform (addTransaction s newId t) p.id
      (patchCredits (p.credits + t.amount))).platforms = _
    rw [updatePlatform]
    show s.platforms.map _ = _
    apply List.map_congr_left
    intro q hq
    have hmem : p ∈ s.platforms := List.mem_of_find?_eq_some hp
    by_cases hqp : q = p
    · subst hqp
      simp [applyPatch_patchCredits]
    · have hqid : (q.id == p.id) = false := by
        rw [beq_eq_false_iff_ne]
        intro hid
        exact hqp (List.inj_on_of_nodup_map hids hq hmem hid)
      simp [hqid, hqp]
  · intro h
    have hnone : s.platforms.find? (fun q => q.name == t.platform) = none := by
      rw [List.find?_eq_none]
      intro q hq
      simpa using h q hq
    rw [onCreateTxn, hnone]
    rfl

/-- A sample platform, state and transaction for the C1 witness. -/
def pW : Platform :=
  { id := "pl1", name := "Suno", credits := 100, color := "#60a5fa",
    unit := "credits", account := "main", monthlyAllowance := 0 }

def sW : LedgerState := { platforms := [pW], transactions := [] }

def tW : TxnInput :=
  { platform := "Suno", amount := -40, project := "x", note := "", date := 0 }

/-- Witness for C1 at a concrete state: credits `100`, amount `-40`, result `60`. -/
theorem c1_addTransaction_flow_witness :
    (onCreateTxn sW tW "tx1").transactions = mkTxn "tx1" tW :: sW.transactions ∧
    (onCreateTxn sW tW "tx1").platforms = [{ pW with credits := 60 }] := by
  have h := c1_addTransaction_flow sW tW "tx1" (by decide)
  refine ⟨h.1, ?_⟩
  have hfind : sW.platforms.find? (fun q => q.name == tW.platform) = some pW := by decide
  rw [h.2.1 pW hfind]
  show [if pW = pW then { pW with credits := pW.credits + tW.amount } else pW] = _
  rw [if_pos rfl]
  have h60 : pW.credits + tW.amount = 60 := by
    norm_num [pW, tW]
  rw [h60]

/-- A platform named in lowercase, for the C2/C8 counterexamples. -/
def pSuno : Platform :=
  { id := "p1", name := "suno", credits := 0, color := "#64748b",
    unit := "credits", account := "main", monthlyAllowance := 0 }

def sDup : LedgerState := { platforms := [pSuno], transactions := [] }

/-- C2 counterexample: with a platform named `suno` present, `addPlatform`
accepts the preset name `Suno` — its duplicate check is case-sensitive — and
the resulting collection holds two platforms whose names differ only in case. -/
theorem c2_counterexample :
    (∃ p ∈ sDup.platforms, jsToLower p.name = jsToLower "Suno") ∧
    addPlatform sDup "Suno" "p2" ≠ sDup ∧
    ((addPlatform sDup "Suno" "p2").platforms.map Platform.name) = ["suno", "Suno"] := by
  refine ⟨⟨pSuno, by decide, by decide⟩, by decide, by decide⟩

/-- C2 amended: `addCustomPlatform` rejects a case-insensitive duplicate name
and `addPlatform` rejects an exact duplicate name, each leaving the state
unchanged; case-insensitive uniqueness is enforced only by `addCustomPlatform`. -/
theorem c2_name_uniqueness_amended (s : LedgerState) (name newId : String)
    (custom : CustomForm) (cid : String) :
    ((∃ p ∈ s.platforms, p.name = name) → addPlatform s name newId = s) ∧
    ((∃ p ∈ s.platforms, jsToLower p.name = jsToLower (jsTrim (custom.name.getD ""))) →
      addCustomPlatform s custom cid = s) := by
  constructor
  · rintro ⟨p, hp, rfl⟩
    rw [addPlatform]
    by_cases h0 : p.name = ""
    · rw [if_pos h0]
    · rw [if_neg h0, if_pos (List.any_eq_true.mpr ⟨p, hp, by simp⟩)]
  · rintro ⟨p, hp, hlow⟩
    rw [addCustomPlatform]
    by_cases h0 : jsTrim (custom.name.getD "") = ""
    · rw [if_pos h0]
    · rw [if_neg h0, if_pos (List.any_eq_true.mpr ⟨p, hp, by simp [hlow]⟩)]

/-- The duplicate-named custom form of the C2 witness. -/
def sunoForm : CustomForm :=
  { name := some " SUNO ", credits := none, color := none, unit := none,
    account := none, monthlyAllowance := none }

/-- Witness for C2 (amended) at concrete duplicate names. -/
theorem c2_name_uniqueness_amended_witness :
    addPlatform sDup "suno" "p9" = sDup ∧
    addCustomPlatform sDup sunoForm "p9" = sDup := by
  constructor
  · exact (c2_name_uniqueness_amended sDup "suno" "p9"
      ⟨none, none, none, none, none, none⟩ "x").1 ⟨pSuno, by decide, by decide⟩
  · exact (c2_name_uniqueness_amended sDup "x" "y" sunoForm "p9").2
      ⟨pSuno, by decide, by decide⟩

/-- The empty ledger, for the C8 counterexample. -/
def sEmpty : LedgerState := { platforms := [], transactions := [] }

/-- C8 counterexample: `addPlatform` does not trim its argument: a
whitespace-only name — empty after trimming — is not rejected; a platform is
created. -/
theorem c8_counterexample :
    jsTrim " " = "" ∧
    (addPlatform sEmpty " " "n1").platforms.length = 1 ∧
    addPlatform sEmpty " " "n1" ≠ sEmpty := by
  refine ⟨by decide, by decide, by decide⟩

/-- C8 amended: `addPlatform` rejects an empty (untrimmed) or exact-duplicate
name and `addCustomPlatform` rejects an empty-trimmed or case-insensitive
duplicate name, each preserving the whole state; a valid call adds exactly one
platform whose credits are the requested starting balance (`0` when
unspecified or non-numeric, and always `0` for `addPlatform`), leaving the
transactions unchanged. -/
theorem c8_add_amended (s : LedgerState) (name nid : String) (custom : CustomForm)
    (cid : String) :
    (name = "" → addPlatform s name nid = s) ∧
    ((∃ p ∈ s.platforms, p.name = name) → addPlatform s name nid = s) ∧
    (name ≠ "" → (∀ p ∈ s.platforms, p.name ≠ name) →
      (addPlatform s name nid).platforms.length = s.platforms.length + 1 ∧
      (addPlatform s name nid).transactions = s.transactions ∧
      ∃ q ∈ (addPlatform s name nid).platforms,
        q.id = nid ∧ q.name = name ∧ q.credits = 0) ∧
    (jsTrim (custom.name.getD "") = "" → addCustomPlatform s custom cid = s) ∧
    ((∃ p ∈ s.platforms, jsToLower p.name = jsToLower (jsTrim (custom.name.getD ""))) →
      addCustomPlatform s custom cid = s) ∧
    (jsTrim (custom.name.getD "") ≠ "" →
      (∀ p ∈ s.platforms, jsToLower p.name ≠ jsToLower (jsTrim (custom.name.getD ""))) →
      (addCustomPlatform s custom cid).platforms.length = s.platforms.length + 1 ∧
      (addCustomPlatform s custom cid).transactions = s.transactions ∧
      ∃ q ∈ (addCustomPlatform s custom cid).platforms, q.id = cid ∧
        q.name = jsTrim (custom.name.getD "") ∧ q.credits = custom.credits.getD 0) := by
  refine ⟨?_, ?_, ?_, ?_, ?_, ?_⟩
  · intro h
    rw [addPlatform, if_pos h]
  · rintro ⟨p, hp, rfl⟩
    rw [addPlatform]
    by_cases h0 : p.name = ""
    · rw [if_pos h0]
    · rw [if_neg h0, if_pos (List.any_eq_true.mpr ⟨p, hp, by simp⟩)]
  · intro h0 hnodup
    have hany : ¬ s.platforms.any (fun p => p.name == name) = true := by
      rw [List.any_eq_true]
      rintro ⟨p, hp, hbeq⟩
      exact hnodup p hp (by simpa using hbeq)
    rw [addPlatform, if_neg h0, if_neg hany]
    refine ⟨by simp, rfl, ?_⟩
    exact ⟨_, List.mem_append_right _ (List.mem_singleton_self _), rfl, rfl, rfl⟩
  · intro h
    rw [addCustomPlatform, if_pos h]
  · rintro ⟨p, hp, hlow⟩
    rw [addCustomPlatform]
    by_cases h0 : jsTrim (custom.name.getD "") = ""
    · rw [if_pos h0]
    · rw [if_neg h0, if_pos (List.any_eq_true.mpr ⟨p, hp, by simp [hlow]⟩)]
  · intro h0 hnodup
    have hany : ¬ s.platforms.any (fun p =>
        jsToLower p.name == jsToLower (jsTrim (custom.name.getD ""))) = true := by
      rw [List.any_eq_true]
      rintro ⟨p, hp, hbeq⟩
      exact hnodup p hp (by simpa using hbeq)
    rw [addCustomPlatform, if_neg h0, if_neg hany]
    refine ⟨by simp, rfl, ?_⟩
    exact ⟨_, List.mem_append_right _ (List.mem_singleton_self _), rfl, rfl, rfl⟩

/-- The valid custom form of the C8 witness. -/
def veoForm : CustomForm :=
  { name := some " Veo3 ", credits := some 25, color := none, unit := none,
    account := none, monthlyAllowance := none }

/-- Witness for C8 (amended): a valid custom creation with starting balance 25
adds one platform; an exact-duplicate preset creation is rejected. -/
theorem c8_add_amended_witness :
    ((addCustomPlatform sEmpty veoForm "c1").platforms.length
      = sEmpty.platforms.length + 1 ∧
     (addCustomPlatform sEmpty veoForm "c1").transactions = sEmpty.transactions ∧
     ∃ q ∈ (addCustomPlatform sEmpty veoForm "c1").platforms,
       q.id = "c1" ∧ q.name = jsTrim " Veo3 " ∧ q.credits = (25 : ℚ)) ∧
    addPlatform sDup "suno" "z1" = sDup := by
  constructor
  · exact (c8_add_amended sEmpty "x" "y" veoForm "c1").2.2.2.2.2
      (by decide) (by intro p hp; simp [sEmpty] at hp)
  · exact (c8_add_amended sDup "suno" "z1" ⟨none, none, none, none, none, none⟩ "w").2.1
      ⟨pSuno, by decide, rfl⟩

/-- C3: `removePlatform(id)` removes exactly the platform with that id and
exactly the transactions whose `platform` field equals that platform's name at
lookup time; every other platform and every transaction naming a different
platform survives. -/
theorem c3_removePlatform (s : LedgerState) (id : String) (p : Platform)
    (hfind : s.platforms.find? (fun q => q.id == id) = some p)
    (hids : (s.platforms.map Platform.id).Nodup) :
    p ∈ s.platforms ∧ p.id = id ∧
    (removePlatform s id).platforms = s.platforms.erase p ∧
    (removePlatform s id).platforms.length + 1 = s.platforms.length ∧
    (removePlatform s id).transactions =
      s.transactions.filter (fun t => decide (t.platform ≠ p.name)) := by
  have hmem : p ∈ s.platforms := List.mem_of_find?_eq_some hfind
  have hpid : p.id = id := by simpa using List.find?_some hfind
  have hinj := List.inj_on_of_nodup_map hids
  have hplat : (removePlatform s id).platforms = s.platforms.erase p := by
    rw [removePlatform]
    show s.platforms.filter _ = _
    rw [(hids.of_map).erase_eq_filter]
    apply List.filter_congr
    intro q hq
    rw [Bool.eq_iff_iff]
    simp only [bne_iff_ne, ne_eq]
    constructor
    · intro h1 h2
      exact h1 (h2 ▸ hpid)
    · intro h1 h2
      exact h1 (hinj hq hmem (h2.trans hpid.symm))
  refine ⟨hmem, hpid, hplat, ?_, ?_⟩
  · rw [hplat, List.length_erase_of_mem hmem]
    have := List.length_pos_of_mem hmem
    omega
  · rw [removePlatform]
    show s.transactions.filter _ = _
    apply List.filter_congr
    intro t ht
    simp only [hfind]
    rw [Bool.eq_iff_iff]
    cases hm : platformMapFind s.platforms t.platform with
    | none =>
      simp [bne_iff_ne]
    | some q =>
      have hqmem : q ∈ s.platforms := by
        have h1 : q ∈ s.platforms.reverse :=
          List.mem_of_find?_eq_some (by simpa [platformMapFind] using hm)
        simpa using h1
      have hqname : q.name = t.platform := by
        have h2 := List.find?_some
          (show s.platforms.reverse.find? (fun r => r.name == t.platform) = some q from
            by simpa [platformMapFind] using hm)
        simpa using h2
      simp only [Bool.and_eq_true, bne_iff_ne, ne_eq, decide_eq_true_eq]
      constructor
      · rintro ⟨-, h2⟩
        exact h2
      · intro h2
        refine ⟨fun hqid => ?_, h2⟩
        have hqp : q = p := hinj hqmem hmem (hqid.trans hpid.symm)
        exact h2 (by rw [← hqname, hqp])

/-- A second platform and two transactions for the C3 witness. -/
def pOther : Platform :=
  { id := "p2", name := "Runway", credits := 5, color := "#f472b6",
    unit := "credits", account := "main", monthlyAllowance := 0 }

def txSuno : Txn :=
  { id := "t1", platform := "Suno", amount := -1, project := "", note := "", date := 0 }

def txRunway : Txn :=
  { id := "t2", platform := "Runway", amount := -2, project := "", note := "", date := 0 }

def sC3 : LedgerState := { platforms := [pW, pOther], transactions := [txSuno, txRunway] }

/-- Witness for C3: removing the `Suno` platform by id drops it and its
transaction, keeping the `Runway` platform and transaction. -/
theorem c3_removePlatform_witness :
    pW ∈ sC3.platforms ∧ pW.id = "pl1" ∧
    (removePlatform sC3 "pl1").platforms = sC3.platforms.erase pW ∧
    (removePlatform sC3 "pl1").platforms.length + 1 = sC3.platforms.length ∧
    (removePlatform sC3 "pl1").transactions =
      sC3.transactions.filter (fun t => decide (t.platform ≠ pW.name)) :=
  c3_removePlatform sC3 "pl1" pW (by decide) (by decide)

/-- Two distinct transactions sharing one date, for the C9 counterexample. -/
def txnX : Txn :=
  { id := "a", platform := "Suno", amount := -1, project := "", note := "", date := 0 }

def txnY : Txn :=
  { id := "b", platform := "Suno", amount := -2, project := "", note := "", date := 0 }

/-- C9 counterexample: on two distinct equal-date transactions the filtered
view returns them in insertion order, for either insertion order — the tie is
resolved by the stable sort's insertion order, not by any comparison of the
date fields. -/
theorem c9_counterexample :
    txnX.date = txnY.date ∧ txnX ≠ txnY ∧
    List.Perm [txnX, txnY] [txnY, txnX] ∧
    filteredTxns "All" [txnX, txnY] = [txnX, txnY] ∧
    filteredTxns "All" [txnY, txnX] = [txnY, txnX] ∧
    filteredTxns "All" [txnX, txnY] ≠ filteredTxns "All" [txnY, txnX] := by
  have hfX : filteredTxns "All" [txnX, txnY] = [txnX, txnY] := by
    have hfil : List.filter (fun t => "All" == "All" || t.platform == "All")
        [txnX, txnY] = [txnX, txnY] := by decide
    rw [filteredTxns, hfil]
    exact List.mergeSort_of_sorted (by decide)
  have hfY : filteredTxns "All" [txnY, txnX] = [txnY, txnX] := by
    have hfil : List.filter (fun t => "All" == "All" || t.platform == "All")
        [txnY, txnX] = [txnY, txnX] := by decide
    rw [filteredTxns, hfil]
    exact List.mergeSort_of_sorted (by decide)
  refine ⟨rfl, by decide, List.Perm.swap txnY txnX [], hfX, hfY, ?_⟩
  rw [hfX, hfY]
  decide

/-- C9 amended: the filtered view holds exactly the transactions matching the
selected platform (all of them under `"All"`), sorted by date descending;
transactions with equal dates keep their relative insertion order (the sort is
stable), rather than being reordered by any further comparison. -/
theorem c9_filteredTxns_amended (f : String) (txns : List Txn) :
    (filteredTxns f txns).Perm
      (txns.filter (fun t => f == "All" || t.platform == f)) ∧
    (filteredTxns f txns).Pairwise (fun a b => b.date ≤ a.date) ∧
    ∀ d : ℤ, (filteredTxns f txns).filter (fun t => t.date == d) =
      (txns.filter (fun t => f == "All" || t.platform == f)).filter
        (fun t => t.date == d) := by
  have htrans : ∀ (a b c : Txn), (fun a b : Txn => decide (b.date ≤ a.date)) a b →
      (fun a b : Txn => decide (b.date ≤ a.date)) b c →
      (fun a b : Txn => decide (b.date ≤ a.date)) a c := by
    intro a b c hab hbc
    simp only [decide_eq_true_eq] at hab hbc ⊢
    omega
  have htotal : ∀ (a b : Txn), ((fun a b : Txn => decide (b.date ≤ a.date)) a b ||
      (fun a b : Txn => decide (b.date ≤ a.date)) b a) := by
    intro a b
    simp only [Bool.or_eq_true, decide_eq_true_eq]
    omega
  refine ⟨List.mergeSort_perm _ _, ?_, ?_⟩
  · exact (List.sorted_mergeSort htrans htotal _).imp (fun h => by simpa using h)
  · intro d
    have hperm : ((filteredTxns f txns).filter (fun t => t.date == d)).Perm
        ((txns.filter (fun t => f == "All" || t.platform == f)).filter
          (fun t => t.date == d)) :=
      (List.mergeSort_perm _ _).filter _
    have hmemd : ∀ t ∈ (txns.filter (fun t => f == "All" || t.platform == f)).filter
        (fun t => t.date == d), t.date = d := by
      intro t ht
      have := List.of_mem_filter ht
      simpa using this
    have hpair : ((txns.filter (fun t => f == "All" || t.platform == f)).filter
        (fun t => t.date == d)).Pairwise
          (fun a b => (fun a b : Txn => decide (b.date ≤ a.date)) a b = true) := by
      apply List.pairwise_of_forall_mem_list
      intro a ha b hb
      simp [hmemd a ha, hmemd b hb]
    have hsub : List.Sublist ((txns.filter (fun t => f == "All" || t.platform == f)).filter
        (fun t => t.date == d)) (filteredTxns f txns) :=
      List.sublist_mergeSort htrans htotal hpair (List.filter_sublist _)
    have heq : ((txns.filter (fun t => f == "All" || t.platform == f)).filter
        (fun t => t.date == d)).filter (fun t => t.date == d) =
        (txns.filter (fun t => f == "All" || t.platform == f)).filter
          (fun t => t.date == d) :=
      List.filter_eq_self.mpr (fun t ht => by simp [hmemd t ht])
    have hsub2 : List.Sublist ((txns.filter (fun t => f == "All" || t.platform == f)).filter
        (fun t => t.date == d)) ((filteredTxns f txns).filter (fun t => t.date == d)) := by
      rw [← heq]
      exact hsub.filter _
    exact (hsub2.eq_of_length hperm.length_eq.symm).symm

end CreditRadar
